import Mathlib

/-!
Shallow embedding of the vdscript_to_cpf repository (scripts
vdscript_to_cpf_v1.0.0.py and vdscript_to_cpf_v1.1.0.py).

Both Python scripts read a VirtualDub .vdscript file line by line and
match every line with re.match against the compiled regular expression
r'VirtualDub\.subset\.AddRange\((\d+),(\d+)\);' (anchored at the start of
the line, trailing characters after the semicolon allowed), collecting
one cut segment per matching line.  v1.0.0 stores end = start + count,
v1.1.0 stores end = start + count - 1.  write_cpf_file refuses to
overwrite an existing destination path and otherwise writes a fixed XML
document.

Modelling choices:
* a file's text is given as its list of lines (the result of
  file.readlines()); the trailing newline character a physical line may
  carry is covered by the pattern's indifference to trailing characters;
* Python integers are modelled as Int (arbitrary precision, signed); the
  capture groups are decimal digit strings, so the captured values are
  naturals, embedded into Int where the scripts do arithmetic on them;
* the character class \d is modelled as the ASCII digits 0-9
  (Char.isDigit), the digits that occur in .vdscript files;
* re.match of this particular pattern never backtracks usefully (each
  greedy digit run is followed by a required character that is not a
  digit), so it is modelled by the deterministic reader matchArgs below;
* the file system is a partial map from paths to file contents; the
  message the script prints is returned alongside the new file system,
  and the text written to the destination file is the concatenation, in
  order, of the strings passed to file.write.
-/

/-- Value of a list of decimal digit characters, most significant first,
as computed by Python's int() applied to a capture group. -/
def natOfDigits (ds : List Char) : Nat :=
  ds.foldl (fun a c => 10 * a + (c.toNat - ('0').toNat)) 0

/-- Strip an expected literal from the front of a character list,
returning the rest of the list when the literal is present. -/
def dropLiteral : List Char → List Char → Option (List Char)
  | [], l => some l
  | _ :: _, [] => none
  | c :: cs, x :: xs => if x = c then dropLiteral cs xs else none

/-- The literal part of the pattern, up to the first capture group:
the regex source VirtualDub\.subset\.AddRange\( with its escapes
resolved. -/
def subset_literal : List Char := ("VirtualDub.subset.AddRange(").data

/-- The part of the pattern after the literal: two nonempty digit runs
separated by a comma and closed by a parenthesis and a semicolon, with
arbitrary trailing characters.  Returns the two captured values. -/
def matchArgs (r : List Char) : Option (Nat × Nat) :=
  if (r.takeWhile Char.isDigit).isEmpty then none
  else
    match r.dropWhile Char.isDigit with
    | ',' :: r2 =>
      if (r2.takeWhile Char.isDigit).isEmpty then none
      else
        match r2.dropWhile Char.isDigit with
        | ')' :: ';' :: _ =>
          some (natOfDigits (r.takeWhile Char.isDigit), natOfDigits (r2.takeWhile Char.isDigit))
        | _ => none
    | _ => none

namespace v1_0_0

/-- subset_pattern.match(line) of vdscript_to_cpf_v1.0.0.py: the pattern
must hold at the very start of the line; characters after the matched
part are ignored. -/
def subset_pattern_match (l : List Char) : Option (Nat × Nat) :=
  match dropLiteral subset_literal l with
  | some r => matchArgs r
  | none => none

/-- One element of the list built by v1.0.0's parse_vdscript: the dict
with keys StartPosition and EndPosition. -/
structure CutSegment where
  StartPosition : Int
  EndPosition : Int
  deriving DecidableEq

/-- parse_vdscript of v1.0.0, applied to the lines of the source file:
for each matching line, start_frame and frame_count are the captured
groups and end_frame = start_frame + frame_count. -/
def parse_vdscript : List String → List CutSegment
  | [] => []
  | line :: rest =>
    match subset_pattern_match line.data with
    | some (s, c) =>
      { StartPosition := (s : Int), EndPosition := (s : Int) + (c : Int) } :: parse_vdscript rest
    | none => parse_vdscript rest

end v1_0_0

namespace v1_1_0

/-- subset_pattern.match(line) of vdscript_to_cpf_v1.1.0.py: the same
compiled pattern as in v1.0.0. -/
def subset_pattern_match (l : List Char) : Option (Nat × Nat) :=
  match dropLiteral subset_literal l with
  | some r => matchArgs r
  | none => none

/-- One element of the list built by v1.1.0's parse_vdscript: the dict
with keys start and end. -/
structure CutSegment where
  start : Int
  «end» : Int
  deriving DecidableEq

/-- parse_vdscript of v1.1.0, applied to the lines of the source file:
for each matching line, start_frame and frame_count are the captured
groups and end_frame = start_frame + frame_count - 1 (adjusting for
inclusive behavior in Cuttermaran). -/
def parse_vdscript : List String → List CutSegment
  | [] => []
  | line :: rest =>
    match subset_pattern_match line.data with
    | some (s, c) =>
      { start := (s : Int), «end» := (s : Int) + (c : Int) - 1 } :: parse_vdscript rest
    | none => parse_vdscript rest

/-- The text written for one cut segment by one iteration of the loop
for i, segment in enumerate(cut_segments) in v1.1.0's write_cpf_file
(i is the 0-based enumeration index; the comment shows i + 1). -/
def segment_block (i : Nat) (segment : CutSegment) : String :=
  "  <!-- Segment " ++ toString (i + 1) ++ " -->\n" ++
  "  <CutElements refVideoFile=\"0\" StartPosition=\"" ++ toString segment.start ++
    "\" EndPosition=\"" ++ toString segment.«end» ++ "\">\n" ++
  "    <cutAudioFiles refAudioFile=\"1\" />\n" ++
  "  </CutElements>\n"

/-- The text written by the whole enumerate loop, starting the
enumeration index at i. -/
def segments_text : Nat → List CutSegment → String
  | _, [] => ""
  | i, segment :: rest => segment_block i segment ++ segments_text (i + 1) rest

/-- The full text written to the destination file by v1.1.0's
write_cpf_file on its success path: the concatenation, in order, of the
strings passed to file.write. -/
def cpf_content (video_filepath audio_filepath : String) (cut_segments : List CutSegment) : String :=
  "<?xml version=\"1.0\" standalone=\"yes\"?>\n" ++
  "<StateData xmlns=\"http://cuttermaran.kickme.to/StateData.xsd\">\n" ++
  "  <usedVideoFiles FileID=\"0\" FileName=\"" ++ video_filepath ++ "\" />\n" ++
  "  <usedAudioFiles FileID=\"1\" FileName=\"" ++ audio_filepath ++ "\" StartDelay=\"0\" />\n" ++
  segments_text 0 cut_segments ++
  "  <CurrentFiles refVideoFiles=\"0\">\n" ++
  "    <currentAudioFiles refAudioFiles=\"1\" />\n" ++
  "  </CurrentFiles>\n" ++
  "</StateData>\n"

/-- The file system: a partial map from paths to file contents. -/
def FileSystem : Type := String → Option String

/-- write_cpf_file of v1.1.0.  os.path.exists(output_filepath) is the
definedness of the map at that path; when it holds nothing is written
and the error message is printed; otherwise the destination file is
created with cpf_content and the success message is printed.  The
result pairs the file system after the call with the printed message. -/
def write_cpf_file (fs : FileSystem) (output_filepath video_filepath audio_filepath : String)
    (cut_segments : List CutSegment) : FileSystem × String :=
  if (fs output_filepath).isSome then
    (fs, "Error: The file " ++ output_filepath ++
      " already exists. Please choose a different filename or remove the existing file.")
  else
    (fun p => if p = output_filepath then
        some (cpf_content video_filepath audio_filepath cut_segments)
      else fs p,
     "Cuttermaran project file saved as " ++ output_filepath)

end v1_1_0

/-! Helper lemmas about the pattern matcher. -/

theorem isEmpty_false_of_ne_nil {l : List Char} (h : l ≠ []) : l.isEmpty = false := by
  cases l with
  | nil => exact absurd rfl h
  | cons a l => rfl

theorem ne_nil_of_isEmpty_false {l : List Char} (h : ¬l.isEmpty = true) : l ≠ [] := by
  cases l with
  | nil => exact absurd rfl h
  | cons a l => exact List.cons_ne_nil a l

theorem dropLiteral_append (pre r : List Char) : dropLiteral pre (pre ++ r) = some r := by
  induction pre with
  | nil => rfl
  | cons c cs ih => simp [dropLiteral, ih]

theorem eq_append_of_dropLiteral {pre l r : List Char} (h : dropLiteral pre l = some r) :
    l = pre ++ r := by
  induction pre generalizing l with
  | nil =>
    simp only [dropLiteral, Option.some.injEq] at h
    simp [h]
  | cons c cs ih =>
    cases l with
    | nil => exact absurd h (by simp [dropLiteral])
    | cons x xs =>
      simp only [dropLiteral] at h
      by_cases hx : x = c
      · simp only [hx, if_pos rfl] at h
        simp [hx, ih h]
      · simp [if_neg hx] at h

theorem takeWhile_digits_append {ds : List Char} (hds : ∀ x ∈ ds, Char.isDigit x = true)
    {c : Char} (hc : Char.isDigit c = false) (r : List Char) :
    (ds ++ c :: r).takeWhile Char.isDigit = ds ∧
      (ds ++ c :: r).dropWhile Char.isDigit = c :: r := by
  induction ds with
  | nil => simp [List.takeWhile, List.dropWhile, hc]
  | cons d ds ih =>
    have hd : Char.isDigit d = true := hds d (by simp)
    have ih2 := ih (fun x hx => hds x (by simp [hx]))
    simp [List.takeWhile, List.dropWhile, hd, ih2.1, ih2.2]

theorem matchArgs_complete {d1 d2 : List Char} (t : List Char) (h1 : d1 ≠ [])
    (hd1 : ∀ x ∈ d1, Char.isDigit x = true) (h2 : d2 ≠ [])
    (hd2 : ∀ x ∈ d2, Char.isDigit x = true) :
    matchArgs (d1 ++ ',' :: (d2 ++ ')' :: ';' :: t)) = some (natOfDigits d1, natOfDigits d2) := by
  obtain ⟨ht1, hw1⟩ := takeWhile_digits_append hd1 (c := ',') (by decide) (d2 ++ ')' :: ';' :: t)
  obtain ⟨ht2, hw2⟩ := takeWhile_digits_append hd2 (c := ')') (by decide) (';' :: t)
  unfold matchArgs
  rw [ht1, hw1, isEmpty_false_of_ne_nil h1]
  simp only [Bool.false_eq_true, if_false]
  rw [ht2, hw2, isEmpty_false_of_ne_nil h2]
  simp

theorem matchArgs_sound {r : List Char} {s c : Nat} (h : matchArgs r = some (s, c)) :
    ∃ d1 d2 t, r = d1 ++ ',' :: (d2 ++ ')' :: ';' :: t) ∧ d1 ≠ [] ∧
      (∀ x ∈ d1, Char.isDigit x = true) ∧ d2 ≠ [] ∧ (∀ x ∈ d2, Char.isDigit x = true) ∧
      s = natOfDigits d1 ∧ c = natOfDigits d2 := by
  unfold matchArgs at h
  split at h
  · exact absurd h (by simp)
  next hne1 =>
    split at h
    next r2 heq1 =>
      split at h
      · exact absurd h (by simp)
      next hne2 =>
        split at h
        next tail heq2 =>
          refine ⟨r.takeWhile Char.isDigit, r2.takeWhile Char.isDigit, tail, ?_, ?_, ?_, ?_, ?_, ?_, ?_⟩
          · conv_lhs => rw [(List.takeWhile_append_dropWhile Char.isDigit r).symm]
            rw [heq1]
            conv_lhs => rw [(List.takeWhile_append_dropWhile Char.isDigit r2).symm]
            rw [heq2]
          · exact ne_nil_of_isEmpty_false hne1
          · exact fun x hx => List.mem_takeWhile_imp hx
          · exact ne_nil_of_isEmpty_false hne2
          · exact fun x hx => List.mem_takeWhile_imp hx
          · exact (Prod.mk.injEq _ _ _ _ ▸ Option.some.inj h).1.symm
          · exact (Prod.mk.injEq _ _ _ _ ▸ Option.some.inj h).2.symm
        · exact absurd h (by simp)
    · exact absurd h (by simp)

/-- The statement text VirtualDub.subset.AddRange(d1,d2); with digit
lists d1 and d2 filled in for the two capture groups. -/
def addRange_stmt (d1 d2 : List Char) : String :=
  String.mk (subset_literal ++ (d1 ++ ',' :: (d2 ++ [')', ';'])))

theorem subset_pattern_match_versions_agree (l : List Char) :
    v1_0_0.subset_pattern_match l = v1_1_0.subset_pattern_match l := rfl

theorem subset_pattern_match_complete {d1 d2 : List Char} (t : List Char) (h1 : d1 ≠ [])
    (hd1 : ∀ x ∈ d1, Char.isDigit x = true) (h2 : d2 ≠ [])
    (hd2 : ∀ x ∈ d2, Char.isDigit x = true) :
    v1_1_0.subset_pattern_match (subset_literal ++ (d1 ++ ',' :: (d2 ++ ')' :: ';' :: t))) =
      some (natOfDigits d1, natOfDigits d2) := by
  unfold v1_1_0.subset_pattern_match
  rw [dropLiteral_append]
  exact matchArgs_complete t h1 hd1 h2 hd2

theorem subset_pattern_match_sound {l : List Char} {s c : Nat}
    (h : v1_1_0.subset_pattern_match l = some (s, c)) :
    ∃ core t, l = (subset_literal ++ core) ++ t ∧
      (∀ x ∈ core, Char.isDigit x = true ∨ x = ',' ∨ x = ')' ∨ x = ';') ∧
      ∀ t2, v1_1_0.subset_pattern_match ((subset_literal ++ core) ++ t2) = some (s, c) := by
  unfold v1_1_0.subset_pattern_match at h
  split at h
  next r heq =>
    obtain ⟨d1, d2, tail, hr, h1, hdig1, h2, hdig2, hs, hc⟩ := matchArgs_sound h
    refine ⟨d1 ++ ',' :: (d2 ++ [')', ';']), tail, ?_, ?_, ?_⟩
    · rw [eq_append_of_dropLiteral heq, hr]
      simp [List.append_assoc]
    · intro x hx
      simp only [List.mem_append, List.mem_cons, List.mem_singleton, List.not_mem_nil,
        or_false] at hx
      rcases hx with h3 | h3 | h3 | h3 | h3
      · exact Or.inl (hdig1 x h3)
      · exact Or.inr (Or.inl h3)
      · exact Or.inl (hdig2 x h3)
      · exact Or.inr (Or.inr (Or.inl h3))
      · exact Or.inr (Or.inr (Or.inr h3))
    · intro t2
      have e : (subset_literal ++ (d1 ++ ',' :: (d2 ++ [')', ';']))) ++ t2 =
          subset_literal ++ (d1 ++ ',' :: (d2 ++ ')' :: ';' :: t2)) := by
        simp [List.append_assoc]
      rw [e, subset_pattern_match_complete t2 h1 hdig1 h2 hdig2, hs, hc]
  next => exact absurd h (by simp)

theorem subset_pattern_match_extend_none {p : List Char} (hp : p ≠ [])
    (h : v1_1_0.subset_pattern_match p = none) (q : List Char) :
    v1_1_0.subset_pattern_match (p ++ ('V') :: q) = none := by
  cases hsome : v1_1_0.subset_pattern_match (p ++ ('V') :: q) with
  | none => rfl
  | some v =>
    obtain ⟨s, c⟩ := v
    obtain ⟨core, t, heq, hmem, hstable⟩ := subset_pattern_match_sound hsome
    rcases List.append_eq_append_iff.mp heq with ⟨a2, ha1, ha2⟩ | ⟨c2, hc1, hc2⟩
    · cases a2 with
      | nil =>
        rw [List.append_nil] at ha1
        have := hstable []
        rw [List.append_nil, ha1, h] at this
        exact absurd this (by simp)
      | cons x a3 =>
        have hx : x = 'V' := by
          have := (List.cons.injEq _ _ _ _).mp ha2.symm
          exact this.1
        subst hx
        obtain ⟨y, p2, hy⟩ : ∃ y p2, p = y :: p2 := by
          cases p with
          | nil => exact absurd rfl hp
          | cons y p2 => exact ⟨y, p2, rfl⟩
        subst hy
        have hlit : subset_literal ++ core = 'V' :: (("irtualDub.subset.AddRange(").data ++ core) := by
          rfl
        rw [hlit, List.cons_append] at ha1
        have htail : ("irtualDub.subset.AddRange(").data ++ core = p2 ++ 'V' :: a3 := by
          exact ((List.cons.injEq _ _ _ _).mp ha1).2
        have hVmem : ('V') ∈ ("irtualDub.subset.AddRange(").data ++ core := by
          rw [htail]
          simp
        rcases List.mem_append.mp hVmem with h3 | h3
        · exact absurd h3 (by decide)
        · rcases hmem _ h3 with h4 | h4 | h4 | h4 <;> simp at h4
    · have := hstable c2
      rw [← hc1, h] at this
      exact absurd this (by simp)

/-! Helper lemmas about the extractors. -/

theorem parse_vdscript_cons_some {line : String} {s c : Nat} (rest : List String)
    (h : v1_1_0.subset_pattern_match line.data = some (s, c)) :
    v1_1_0.parse_vdscript (line :: rest) =
      { start := (s : Int), «end» := (s : Int) + (c : Int) - 1 } :: v1_1_0.parse_vdscript rest := by
  simp [v1_1_0.parse_vdscript, h]

theorem parse_vdscript_cons_none {line : String} (rest : List String)
    (h : v1_1_0.subset_pattern_match line.data = none) :
    v1_1_0.parse_vdscript (line :: rest) = v1_1_0.parse_vdscript rest := by
  simp [v1_1_0.parse_vdscript, h]

theorem parse_vdscript_append (u w : List String) :
    v1_1_0.parse_vdscript (u ++ w) = v1_1_0.parse_vdscript u ++ v1_1_0.parse_vdscript w := by
  induction u with
  | nil => rfl
  | cons l u ih =>
    cases h : v1_1_0.subset_pattern_match l.data with
    | some v =>
      obtain ⟨s, c⟩ := v
      rw [List.cons_append, parse_vdscript_cons_some _ h, parse_vdscript_cons_some _ h, ih,
        List.cons_append]
    | none =>
      rw [List.cons_append, parse_vdscript_cons_none _ h, parse_vdscript_cons_none _ h, ih]

theorem parse_vdscript_eq_filterMap (lines : List String) :
    v1_1_0.parse_vdscript lines =
      (lines.filterMap fun l => v1_1_0.subset_pattern_match l.data).map
        fun p => { start := (p.1 : Int), «end» := (p.1 : Int) + (p.2 : Int) - 1 } := by
  induction lines with
  | nil => rfl
  | cons l rest ih =>
    cases h : v1_1_0.subset_pattern_match l.data with
    | some v =>
      obtain ⟨s, c⟩ := v
      rw [parse_vdscript_cons_some _ h, List.filterMap_cons, h, List.map_cons, ih]
    | none =>
      rw [parse_vdscript_cons_none _ h, List.filterMap_cons, h, ih]

theorem parse_vdscript_eq_nil {lines : List String}
    (h : ∀ l ∈ lines, v1_1_0.subset_pattern_match l.data = none) :
    v1_1_0.parse_vdscript lines = [] := by
  induction lines with
  | nil => rfl
  | cons l rest ih =>
    rw [parse_vdscript_cons_none _ (h l (by simp))]
    exact ih (fun x hx => h x (by simp [hx]))

/-! Helper lemmas about the writer's segment loop. -/

/-- Plain concatenation of a list of strings, used on the specification
side to state how the writer's loop assembles its output. -/
def concat_all : List String → String
  | [] => ""
  | s :: rest => s ++ concat_all rest

theorem segments_text_eq_enumFrom (i : Nat) (segs : List v1_1_0.CutSegment) :
    v1_1_0.segments_text i segs =
      concat_all ((List.enumFrom i segs).map fun p => v1_1_0.segment_block p.1 p.2) := by
  induction segs generalizing i with
  | nil => rfl
  | cons s rest ih =>
    simp only [v1_1_0.segments_text, List.enumFrom, List.map_cons, concat_all]
    rw [ih]

theorem segments_text_append (xs ys : List v1_1_0.CutSegment) (i : Nat) :
    v1_1_0.segments_text i (xs ++ ys) =
      v1_1_0.segments_text i xs ++ v1_1_0.segments_text (i + xs.length) ys := by
  induction xs generalizing i with
  | nil => simp [v1_1_0.segments_text]
  | cons x xs ih =>
    have harith : i + 1 + xs.length = i + (xs.length + 1) := by omega
    simp only [List.cons_append, v1_1_0.segments_text, List.length_cons]
    rw [show xs.append ys = xs ++ ys from rfl, ih]
    simp [String.append_assoc, harith]

theorem data_of_append (s t : String) : (s ++ t).data = s.data ++ t.data :=
  String.data_append s t

theorem parse0_cons_some {line : String} {s c : Nat} (rest : List String)
    (h : v1_0_0.subset_pattern_match line.data = some (s, c)) :
    v1_0_0.parse_vdscript (line :: rest) =
      { StartPosition := (s : Int), EndPosition := (s : Int) + (c : Int) } ::
        v1_0_0.parse_vdscript rest := by
  simp [v1_0_0.parse_vdscript, h]

theorem parse0_cons_none {line : String} (rest : List String)
    (h : v1_0_0.subset_pattern_match line.data = none) :
    v1_0_0.parse_vdscript (line :: rest) = v1_0_0.parse_vdscript rest := by
  simp [v1_0_0.parse_vdscript, h]

/-! The claim theorems. -/

/-- C1: a source whose lines are the line VirtualDub.subset.AddRange(100,50);
followed by the line VirtualDub.subset.AddRange(300,10);, in that order,
possibly surrounded and separated by lines the pattern does not match,
is parsed by v1.1.0's parse_vdscript (the inclusive policy) to exactly
the two intervals (start 100, end 149) and (start 300, end 309), in
that order. -/
theorem parse_vdscript_two_matching_lines (u v w : List String)
    (hu : ∀ l ∈ u, v1_1_0.subset_pattern_match l.data = none)
    (hv : ∀ l ∈ v, v1_1_0.subset_pattern_match l.data = none)
    (hw : ∀ l ∈ w, v1_1_0.subset_pattern_match l.data = none) :
    v1_1_0.parse_vdscript
        (u ++ ("VirtualDub.subset.AddRange(100,50);") ::
          (v ++ ("VirtualDub.subset.AddRange(300,10);") :: w)) =
      [{ start := 100, «end» := 149 }, { start := 300, «end» := 309 }] := by
  have h1 : v1_1_0.subset_pattern_match (("VirtualDub.subset.AddRange(100,50);").data) =
      some (100, 50) := by decide
  have h2 : v1_1_0.subset_pattern_match (("VirtualDub.subset.AddRange(300,10);").data) =
      some (300, 10) := by decide
  rw [parse_vdscript_append, parse_vdscript_eq_nil hu, parse_vdscript_cons_some _ h1,
    parse_vdscript_append, parse_vdscript_eq_nil hv, parse_vdscript_cons_some _ h2,
    parse_vdscript_eq_nil hw]
  decide

/-- Witness for C1 at the two-line source itself. -/
theorem parse_vdscript_two_matching_lines_witness :
    v1_1_0.parse_vdscript
        [("VirtualDub.subset.AddRange(100,50);"), ("VirtualDub.subset.AddRange(300,10);")] =
      [{ start := 100, «end» := 149 }, { start := 300, «end» := 309 }] :=
  parse_vdscript_two_matching_lines [] [] [] (by simp) (by simp) (by simp)

/-- C2 counterexample: the count capture group may be the single digit 0;
the line VirtualDub.subset.AddRange(100,0); is matched and v1.1.0
computes end = 100 + 0 - 1 = 99, which is smaller than start = 100, so
end >= start does not hold for every produced interval. -/
theorem end_ge_start_counterexample :
    v1_1_0.parse_vdscript [("VirtualDub.subset.AddRange(100,0);")] =
        [{ start := 100, «end» := 99 }] ∧
      ¬((99 : Int) ≥ 100) := by
  exact ⟨by decide, by decide⟩

/-- C2 amended: on every input text, every interval produced by
v1.1.0's parse_vdscript from a matched line whose count is at least 1
satisfies end >= start (and that interval is indeed among the parse
output), with no assumption on the other lines of the source; a matched
count of 0 instead yields end = start - 1 < start. -/
theorem end_ge_start_of_positive_counts (lines : List String) (l : String) (s c : Nat)
    (hl : l ∈ lines) (hm : v1_1_0.subset_pattern_match l.data = some (s, c)) (hc : 1 ≤ c) :
    ({ start := (s : Int), «end» := (s : Int) + (c : Int) - 1 } : v1_1_0.CutSegment).«end» ≥
        ({ start := (s : Int), «end» := (s : Int) + (c : Int) - 1 } : v1_1_0.CutSegment).start ∧
      ({ start := (s : Int), «end» := (s : Int) + (c : Int) - 1 } : v1_1_0.CutSegment) ∈
        v1_1_0.parse_vdscript lines := by
  constructor
  · show (s : Int) + (c : Int) - 1 ≥ (s : Int)
    omega
  · rw [parse_vdscript_eq_filterMap]
    refine List.mem_map.mpr ⟨(s, c), ?_, rfl⟩
    exact List.mem_filterMap.mpr ⟨l, hl, hm⟩

/-- Witness for the amended C2 on a mixed source whose first matched
line has count 0 and whose second has count 5: the interval produced by
the second line satisfies end >= start and is in the output. -/
theorem end_ge_start_of_positive_counts_witness :
    ({ start := ((200 : Nat) : Int),
        «end» := ((200 : Nat) : Int) + ((5 : Nat) : Int) - 1 } : v1_1_0.CutSegment).«end» ≥
        ({ start := ((200 : Nat) : Int),
            «end» := ((200 : Nat) : Int) + ((5 : Nat) : Int) - 1 } : v1_1_0.CutSegment).start ∧
      ({ start := ((200 : Nat) : Int),
          «end» := ((200 : Nat) : Int) + ((5 : Nat) : Int) - 1 } : v1_1_0.CutSegment) ∈
        v1_1_0.parse_vdscript
          [("VirtualDub.subset.AddRange(100,0);"), ("VirtualDub.subset.AddRange(200,5);")] :=
  end_ge_start_of_positive_counts
    [("VirtualDub.subset.AddRange(100,0);"), ("VirtualDub.subset.AddRange(200,5);")]
    ("VirtualDub.subset.AddRange(200,5);") 200 5 (by decide) (by decide) (by decide)

/-- C3: on every source, the v1.0.0 and v1.1.0 extractors match exactly
the same lines (their compiled patterns agree on every line), and the
produced interval sequences have equal length, identical start values at
each position, and at each position v1.0.0's end value equals v1.1.0's
end value plus 1 (end = start + count versus end = start + count - 1). -/
theorem extractor_versions_refinement :
    (∀ l : List Char, v1_0_0.subset_pattern_match l = v1_1_0.subset_pattern_match l) ∧
      ∀ lines : List String,
        List.Forall₂
            (fun s0 s1 => s0.StartPosition = s1.start ∧ s0.EndPosition = s1.«end» + 1)
            (v1_0_0.parse_vdscript lines) (v1_1_0.parse_vdscript lines) ∧
          (v1_0_0.parse_vdscript lines).length = (v1_1_0.parse_vdscript lines).length := by
  refine ⟨subset_pattern_match_versions_agree, fun lines => ?_⟩
  have hfa : List.Forall₂
      (fun s0 s1 => s0.StartPosition = s1.start ∧ s0.EndPosition = s1.«end» + 1)
      (v1_0_0.parse_vdscript lines) (v1_1_0.parse_vdscript lines) := by
    induction lines with
    | nil => exact List.Forall₂.nil
    | cons l rest ih =>
      cases hm : v1_1_0.subset_pattern_match l.data with
      | some p =>
        obtain ⟨s, c⟩ := p
        have hm0 : v1_0_0.subset_pattern_match l.data = some (s, c) := by
          rw [subset_pattern_match_versions_agree]; exact hm
        rw [parse_vdscript_cons_some _ hm, parse0_cons_some _ hm0]
        exact List.Forall₂.cons ⟨rfl, by ring⟩ ih
      | none =>
        have hm0 : v1_0_0.subset_pattern_match l.data = none := by
          rw [subset_pattern_match_versions_agree]; exact hm
        rw [parse_vdscript_cons_none _ hm, parse0_cons_none _ hm0]
        exact ih
  exact ⟨hfa, hfa.length_eq⟩

/-- C10: matching is not anchored at the end of the line: a line that
begins with the exact statement VirtualDub.subset.AddRange(d1,d2); and
continues with arbitrary trailing characters after the semicolon is
still matched, and v1.1.0's parse_vdscript appends the interval computed
from that statement's start and count at the line's position. -/
theorem parse_vdscript_ignores_trailing (d1 d2 : List Char) (t : String)
    (pre post : List String) (h1 : d1 ≠ []) (hd1 : ∀ x ∈ d1, Char.isDigit x = true)
    (h2 : d2 ≠ []) (hd2 : ∀ x ∈ d2, Char.isDigit x = true) :
    v1_1_0.subset_pattern_match ((addRange_stmt d1 d2 ++ t).data) =
        some (natOfDigits d1, natOfDigits d2) ∧
      v1_1_0.parse_vdscript (pre ++ (addRange_stmt d1 d2 ++ t) :: post) =
        v1_1_0.parse_vdscript pre ++
          { start := (natOfDigits d1 : Int),
            «end» := (natOfDigits d1 : Int) + (natOfDigits d2 : Int) - 1 } ::
            v1_1_0.parse_vdscript post := by
  have hdata : (addRange_stmt d1 d2 ++ t).data =
      subset_literal ++ (d1 ++ ',' :: (d2 ++ ')' :: ';' :: t.data)) := by
    rw [data_of_append]
    show (subset_literal ++ (d1 ++ ',' :: (d2 ++ [')', ';']))) ++ t.data = _
    simp [List.append_assoc]
  have hm : v1_1_0.subset_pattern_match ((addRange_stmt d1 d2 ++ t).data) =
      some (natOfDigits d1, natOfDigits d2) := by
    rw [hdata]
    exact subset_pattern_match_complete t.data h1 hd1 h2 hd2
  exact ⟨hm, by rw [parse_vdscript_append, parse_vdscript_cons_some _ hm]⟩

/-- Witness for C10 on the statement VirtualDub.subset.AddRange(412,208);
followed by trailing text. -/
theorem parse_vdscript_ignores_trailing_witness :
    v1_1_0.subset_pattern_match ((addRange_stmt (['4', '1', '2']) (['2', '0', '8']) ++
        (" // trailing text")).data) = some (412, 208) ∧
      v1_1_0.parse_vdscript
          [addRange_stmt (['4', '1', '2']) (['2', '0', '8']) ++ (" // trailing text")] =
        [{ start := 412, «end» := 619 }] := by
  obtain ⟨hA, hB⟩ := parse_vdscript_ignores_trailing (['4', '1', '2']) (['2', '0', '8'])
    (" // trailing text") [] [] (by decide) (by decide) (by decide) (by decide)
  refine ⟨hA.trans (by decide), ?_⟩
  exact hB.trans (by decide)

/-- C5: matching is anchored at the start of the line.  A line made of
one or more leading characters p (whitespace included, p itself not
beginning with a matching statement), followed by the statement
VirtualDub.subset.AddRange(d1,d2); and arbitrary trailing text, is not
matched, and contributes no interval at its position in the source. -/
theorem parse_vdscript_anchored (p : String) (d1 d2 : List Char) (t : String)
    (pre post : List String) (hp : p ≠ "")
    (hjunk : v1_1_0.subset_pattern_match p.data = none)
    (h1 : d1 ≠ []) (hd1 : ∀ x ∈ d1, Char.isDigit x = true)
    (h2 : d2 ≠ []) (hd2 : ∀ x ∈ d2, Char.isDigit x = true) :
    v1_1_0.subset_pattern_match ((p ++ addRange_stmt d1 d2 ++ t).data) = none ∧
      v1_1_0.parse_vdscript (pre ++ (p ++ addRange_stmt d1 d2 ++ t) :: post) =
        v1_1_0.parse_vdscript pre ++ v1_1_0.parse_vdscript post := by
  have hpd : p.data ≠ [] := by
    intro hh
    apply hp
    cases p with
    | mk pdata =>
      simp only at hh
      subst hh
      rfl
  have hsplit : subset_literal = ('V') :: ("irtualDub.subset.AddRange(").data := by decide
  have hdata : (p ++ addRange_stmt d1 d2 ++ t).data =
      p.data ++ ('V') ::
        ((("irtualDub.subset.AddRange(").data ++ (d1 ++ ',' :: (d2 ++ [')', ';']))) ++ t.data) := by
    rw [data_of_append, data_of_append]
    show (p.data ++ (subset_literal ++ (d1 ++ ',' :: (d2 ++ [')', ';'])))) ++ t.data = _
    rw [hsplit]
    simp [List.append_assoc]
  have hnone : v1_1_0.subset_pattern_match ((p ++ addRange_stmt d1 d2 ++ t).data) = none := by
    rw [hdata]
    exact subset_pattern_match_extend_none hpd hjunk _
  exact ⟨hnone, by rw [parse_vdscript_append, parse_vdscript_cons_none _ hnone]⟩

/-- Witness for C5: two leading blanks before the statement
VirtualDub.subset.AddRange(412,208); prevent the line from matching. -/
theorem parse_vdscript_anchored_witness :
    v1_1_0.subset_pattern_match
        ((("  ") ++ addRange_stmt (['4', '1', '2']) (['2', '0', '8']) ++ ("")).data) = none ∧
      v1_1_0.parse_vdscript
          ([] ++ (("  ") ++ addRange_stmt (['4', '1', '2']) (['2', '0', '8']) ++ ("")) :: []) =
        v1_1_0.parse_vdscript [] ++ v1_1_0.parse_vdscript [] :=
  parse_vdscript_anchored ("  ") (['4', '1', '2']) (['2', '0', '8']) ("") [] []
    (by decide) (by decide) (by decide) (by decide) (by decide) (by decide)

/-- C4: when the destination path already exists, write_cpf_file leaves
the whole file system unchanged (in particular the prior contents of the
destination are untouched), prints the already-exists error message, and
abandons the operation without creating any output. -/
theorem write_cpf_file_refuses_overwrite (fs : v1_1_0.FileSystem)
    (out video audio : String) (segs : List v1_1_0.CutSegment) (prior : String)
    (h : fs out = some prior) :
    (v1_1_0.write_cpf_file fs out video audio segs).1 = fs ∧
      (v1_1_0.write_cpf_file fs out video audio segs).1 out = some prior ∧
      (v1_1_0.write_cpf_file fs out video audio segs).2 =
        "Error: The file " ++ out ++
          " already exists. Please choose a different filename or remove the existing file." := by
  have hex : (fs out).isSome = true := by rw [h]; rfl
  refine ⟨?_, ?_, ?_⟩ <;> simp [v1_1_0.write_cpf_file, hex, h]

/-- A file system holding one file, used to witness C4. -/
def fs_example : v1_1_0.FileSystem :=
  fun p => if p = ("out.cpf") then some ("old contents") else none

/-- Witness for C4 on a file system where out.cpf already exists. -/
theorem write_cpf_file_refuses_overwrite_witness :
    (v1_1_0.write_cpf_file fs_example ("out.cpf") ("v.m2v") ("a.mp2") []).1 = fs_example ∧
      (v1_1_0.write_cpf_file fs_example ("out.cpf") ("v.m2v") ("a.mp2") []).1 ("out.cpf") =
        some ("old contents") ∧
      (v1_1_0.write_cpf_file fs_example ("out.cpf") ("v.m2v") ("a.mp2") []).2 =
        "Error: The file " ++ ("out.cpf") ++
          " already exists. Please choose a different filename or remove the existing file." :=
  write_cpf_file_refuses_overwrite fs_example ("out.cpf") ("v.m2v") ("a.mp2") [] ("old contents")
    (by decide)

/-- C9: the video and audio paths are interpolated verbatim into the
FileName attributes, with no XML escaping: for every path string,
including strings containing the characters ampersand, less-than,
greater-than or double quote, the emitted registration line carries the
input string unchanged between the quotes. -/
theorem paths_interpolated_verbatim (video audio : String) (segs : List v1_1_0.CutSegment) :
    List.IsInfix (("  <usedVideoFiles FileID=\"0\" FileName=\"" ++ video ++ "\" />\n").data)
        ((v1_1_0.cpf_content video audio segs).data) ∧
      List.IsInfix (("  <usedAudioFiles FileID=\"1\" FileName=\"" ++ audio ++
          "\" StartDelay=\"0\" />\n").data)
        ((v1_1_0.cpf_content video audio segs).data) := by
  constructor
  · refine ⟨(("<?xml version=\"1.0\" standalone=\"yes\"?>\n") ++
      ("<StateData xmlns=\"http://cuttermaran.kickme.to/StateData.xsd\">\n")).data,
      (("  <usedAudioFiles FileID=\"1\" FileName=\"" ++ audio ++ "\" StartDelay=\"0\" />\n") ++
        (v1_1_0.segments_text 0 segs) ++ ("  <CurrentFiles refVideoFiles=\"0\">\n") ++
        ("    <currentAudioFiles refAudioFiles=\"1\" />\n") ++ ("  </CurrentFiles>\n") ++
        ("</StateData>\n")).data, ?_⟩
    simp only [v1_1_0.cpf_content, data_of_append, List.append_assoc]
  · refine ⟨(("<?xml version=\"1.0\" standalone=\"yes\"?>\n") ++
      ("<StateData xmlns=\"http://cuttermaran.kickme.to/StateData.xsd\">\n") ++
      ("  <usedVideoFiles FileID=\"0\" FileName=\"" ++ video ++ "\" />\n")).data,
      ((v1_1_0.segments_text 0 segs) ++ ("  <CurrentFiles refVideoFiles=\"0\">\n") ++
        ("    <currentAudioFiles refAudioFiles=\"1\" />\n") ++ ("  </CurrentFiles>\n") ++
        ("</StateData>\n")).data, ?_⟩
    simp only [v1_1_0.cpf_content, data_of_append, List.append_assoc]

theorem length_parse_of_all_match {lines : List String}
    (h : ∀ l ∈ lines, (v1_1_0.subset_pattern_match l.data).isSome = true) :
    (v1_1_0.parse_vdscript lines).length = lines.length := by
  induction lines with
  | nil => rfl
  | cons l rest ih =>
    have h1 := h l (by simp)
    cases hm : v1_1_0.subset_pattern_match l.data with
    | none => rw [hm] at h1; simp at h1
    | some p =>
      obtain ⟨s, c⟩ := p
      rw [parse_vdscript_cons_some _ hm, List.length_cons, List.length_cons,
        ih (fun x hx => h x (by simp [hx]))]

/-- C6: ordering is preserved end to end and nothing is sorted,
de-duplicated or merged.  The extractor output is exactly the image, in
source order and with multiplicity, of the matched lines (filterMap
keeps first-to-last order); the writer's loop emits exactly one block
per segment, in sequence order with consecutive enumeration indices;
and when every line of the source matches, the number of intervals
equals the number of lines.  Instantiating the source list with any
permutation of a set of valid lines shows the blocks follow that
permutation's order. -/
theorem ordering_preserved (lines : List String) (segs : List v1_1_0.CutSegment) (i : Nat) :
    (v1_1_0.parse_vdscript lines =
        (lines.filterMap fun l => v1_1_0.subset_pattern_match l.data).map
          fun p => { start := (p.1 : Int), «end» := (p.1 : Int) + (p.2 : Int) - 1 }) ∧
      (v1_1_0.segments_text i segs =
        concat_all ((List.enumFrom i segs).map fun p => v1_1_0.segment_block p.1 p.2)) ∧
      ((∀ l ∈ lines, (v1_1_0.subset_pattern_match l.data).isSome = true) →
        (v1_1_0.parse_vdscript lines).length = lines.length) :=
  ⟨parse_vdscript_eq_filterMap lines, segments_text_eq_enumFrom i segs,
    fun h => length_parse_of_all_match h⟩

/-- Witness for C6 on two valid lines listed in reverse numeric order. -/
theorem ordering_preserved_witness :
    v1_1_0.parse_vdscript
        [("VirtualDub.subset.AddRange(300,10);"), ("VirtualDub.subset.AddRange(100,50);")] =
      ([("VirtualDub.subset.AddRange(300,10);"),
          ("VirtualDub.subset.AddRange(100,50);")].filterMap
            fun l => v1_1_0.subset_pattern_match l.data).map
        (fun p => { start := (p.1 : Int), «end» := (p.1 : Int) + (p.2 : Int) - 1 }) ∧
      (v1_1_0.parse_vdscript
        [("VirtualDub.subset.AddRange(300,10);"), ("VirtualDub.subset.AddRange(100,50);")]).length =
        2 := by
  obtain ⟨hA, _, hC⟩ := ordering_preserved
    [("VirtualDub.subset.AddRange(300,10);"), ("VirtualDub.subset.AddRange(100,50);")] [] 0
  exact ⟨hA, hC (by decide)⟩

set_option maxRecDepth 8000 in
/-- C8: a source with no matching lines parses to the empty interval
sequence (not an error), and the writer still produces the complete
fixed document: the XML declaration, the root StateData element, exactly
one video registration with FileID 0, exactly one audio registration
with FileID 1, no cut-element block, and the trailing CurrentFiles
block before the closing tag. -/
theorem empty_parse_valid_document (lines : List String) (video audio : String)
    (h : ∀ l ∈ lines, v1_1_0.subset_pattern_match l.data = none) :
    v1_1_0.parse_vdscript lines = [] ∧
      v1_1_0.cpf_content video audio (v1_1_0.parse_vdscript lines) =
        "<?xml version=\"1.0\" standalone=\"yes\"?>\n" ++
          "<StateData xmlns=\"http://cuttermaran.kickme.to/StateData.xsd\">\n" ++
          "  <usedVideoFiles FileID=\"0\" FileName=\"" ++ video ++ "\" />\n" ++
          "  <usedAudioFiles FileID=\"1\" FileName=\"" ++ audio ++ "\" StartDelay=\"0\" />\n" ++
          "  <CurrentFiles refVideoFiles=\"0\">\n" ++
          "    <currentAudioFiles refAudioFiles=\"1\" />\n" ++
          "  </CurrentFiles>\n" ++
          "</StateData>\n" ∧
      ¬ List.IsInfix (("<CutElements").data)
        ((v1_1_0.cpf_content ("video.m2v") ("audio.mp2") (v1_1_0.parse_vdscript lines)).data) := by
  have hnil : v1_1_0.parse_vdscript lines = [] := parse_vdscript_eq_nil h
  refine ⟨hnil, ?_, ?_⟩
  · rw [hnil]
    apply String.ext
    simp only [v1_1_0.cpf_content, v1_1_0.segments_text, data_of_append, List.append_assoc,
      show ("" : String).data = ([]) from rfl, List.nil_append]
  · rw [hnil]
    decide

/-- Witness for C8 on a one-line source that does not match. -/
theorem empty_parse_valid_document_witness :
    v1_1_0.parse_vdscript [("some other line")] = [] ∧
      v1_1_0.cpf_content ("v.m2v") ("a.mp2") (v1_1_0.parse_vdscript [("some other line")]) =
        "<?xml version=\"1.0\" standalone=\"yes\"?>\n" ++
          "<StateData xmlns=\"http://cuttermaran.kickme.to/StateData.xsd\">\n" ++
          "  <usedVideoFiles FileID=\"0\" FileName=\"" ++ ("v.m2v") ++ "\" />\n" ++
          "  <usedAudioFiles FileID=\"1\" FileName=\"" ++ ("a.mp2") ++ "\" StartDelay=\"0\" />\n" ++
          "  <CurrentFiles refVideoFiles=\"0\">\n" ++
          "    <currentAudioFiles refAudioFiles=\"1\" />\n" ++
          "  </CurrentFiles>\n" ++
          "</StateData>\n" ∧
      ¬ List.IsInfix (("<CutElements").data)
        ((v1_1_0.cpf_content ("video.m2v") ("audio.mp2")
          (v1_1_0.parse_vdscript [("some other line")])).data) :=
  empty_parse_valid_document [("some other line")] ("v.m2v") ("a.mp2") (by decide)

/-- C7: for an interval with start 412 and end 619, wherever it sits in
the segment list, the emitted cut-element block carries exactly the
attribute text StartPosition "412" and EndPosition "619" (decimal, no
padding) with refVideoFile "0" on the block and refAudioFile "1" on its
single contained audio reference: the full block below appears verbatim
in the document written by write_cpf_file. -/
theorem cut_block_attribute_fidelity (video audio : String) (ss ts : List v1_1_0.CutSegment) :
    List.IsInfix
      (("  <CutElements refVideoFile=\"0\" StartPosition=\"412\" EndPosition=\"619\">\n" ++
        "    <cutAudioFiles refAudioFile=\"1\" />\n" ++ "  </CutElements>\n").data)
      ((v1_1_0.cpf_content video audio
        (ss ++ { start := 412, «end» := 619 } :: ts)).data) := by
  have e1 : toString ((412 : Int)) = ("412") := by decide
  have e2 : toString ((619 : Int)) = ("619") := by decide
  have step1 : List.IsInfix
      (("  <CutElements refVideoFile=\"0\" StartPosition=\"412\" EndPosition=\"619\">\n" ++
        "    <cutAudioFiles refAudioFile=\"1\" />\n" ++ "  </CutElements>\n").data)
      ((v1_1_0.segment_block ss.length ({ start := 412, «end» := 619 })).data) := by
    refine ⟨(("  <!-- Segment " ++ toString (ss.length + 1) ++ " -->\n")).data, [], ?_⟩
    simp only [v1_1_0.segment_block, e1, e2, data_of_append, List.append_assoc, List.append_nil]
    rw [List.append_right_inj, List.append_right_inj, List.append_right_inj]
    decide
  have hsegsplit : v1_1_0.segments_text 0 (ss ++ { start := 412, «end» := 619 } :: ts) =
      v1_1_0.segments_text 0 ss ++
        (v1_1_0.segment_block ss.length ({ start := 412, «end» := 619 }) ++
          v1_1_0.segments_text (ss.length + 1) ts) := by
    rw [segments_text_append]
    simp [v1_1_0.segments_text, Nat.zero_add]
  have step2 : List.IsInfix
      ((v1_1_0.segment_block ss.length ({ start := 412, «end» := 619 })).data)
      ((v1_1_0.cpf_content video audio
        (ss ++ { start := 412, «end» := 619 } :: ts)).data) := by
    refine ⟨(("<?xml version=\"1.0\" standalone=\"yes\"?>\n") ++
        ("<StateData xmlns=\"http://cuttermaran.kickme.to/StateData.xsd\">\n") ++
        ("  <usedVideoFiles FileID=\"0\" FileName=\"" ++ video ++ "\" />\n") ++
        ("  <usedAudioFiles FileID=\"1\" FileName=\"" ++ audio ++ "\" StartDelay=\"0\" />\n") ++
        (v1_1_0.segments_text 0 ss)).data,
      ((v1_1_0.segments_text (ss.length + 1) ts) ++
        ("  <CurrentFiles refVideoFiles=\"0\">\n") ++
        ("    <currentAudioFiles refAudioFiles=\"1\" />\n") ++
        ("  </CurrentFiles>\n") ++ ("</StateData>\n")).data, ?_⟩
    simp only [v1_1_0.cpf_content, hsegsplit, data_of_append, List.append_assoc]
  exact step1.trans step2
